import Mathlib

/-!
# Verification of the mDNS service-resolution record engine
Shallow embedding of `src/zeroconf/_services/info.py` (class `ServiceInfo`).

Byte strings (`bytes` in the source) are `List Nat`; parsed IP addresses
(`ipaddress.IPv4Address` / `IPv6Address`) are `IPAddr`; the shared record
cache is an opaque collaborator, embedded as a lookup function.
-/

namespace ZeroconfInfo

/-- DNS record type constants (`zeroconf.const`). -/
def TYPE_A : Nat := 1
def TYPE_PTR : Nat := 12
def TYPE_TXT : Nat := 16
def TYPE_SRV : Nat := 33
def TYPE_AAAA : Nat := 28
def TYPE_NSEC : Nat := 47
def CLASS_IN : Nat := 1
def CLASS_IN_UNIQUE : Nat := 32769

/-- A parsed IP address as `ipaddress.ip_address` returns it: an IPv4Address
or an IPv6Address, identified by its packed bytes. -/
inductive IPAddr where
  | v4 (packed : List Nat)
  | v6 (packed : List Nat)
deriving DecidableEq

/-- Embeds `_cached_ip_addresses = lru_cache(...)(ip_address)` applied to the
packed `record.address` bytes: 4 bytes parse as IPv4, 16 bytes as IPv6, any
other length raises ValueError (here: `none`). -/
def cachedIpAddresses (address : List Nat) : Option IPAddr :=
  if address.length = 4 then some (IPAddr.v4 address)
  else if address.length = 16 then some (IPAddr.v6 address)
  else none

/-- The attribute mapping `ServiceInfo._properties` holds: a Python dict from
key bytes to value bytes or None, embedded as an insertion-ordered
association list whose keys are unique by construction. -/
abbrev PropsDict := List (List Nat × Option (List Nat))

/-- Python dict insertion: if the key is present, replace its value in place;
otherwise append the new pair at the end. (Keys are unique in any dict, so
replacing the first occurrence is exact.) -/
def dictInsert : PropsDict → List Nat → Option (List Nat) → PropsDict
  | [], k, v => [(k, v)]
  | kv :: rest, k, v => if kv.1 = k then (k, v) :: rest else kv :: dictInsert rest k v

/-- Python dict lookup `d[k]`: the value of the (first) pair with key `k`. -/
def lookupProp : PropsDict → List Nat → Option (Option (List Nat))
  | [], _ => none
  | kv :: rest, k => if kv.1 = k then some kv.2 else lookupProp rest k

/-- One entry of `ServiceInfo._set_properties`: `record = key` and, when the
value is not None, `record += b'=' + value` (61 is the byte of `=`). Only
the bytes-key / bytes-or-None-value branches are in the claims' domain. -/
def encodeEntry (key : List Nat) (value : Option (List Nat)) : List Nat :=
  match value with
  | none => key
  | some v => key ++ 61 :: v

/-- The TXT payload `ServiceInfo._set_properties` stores in `self.text`:
every encoded entry prefixed by its single-byte length, concatenated in
mapping iteration order. -/
def setPropertiesText : List (List Nat × Option (List Nat)) → List Nat
  | [] => []
  | kv :: rest => ((encodeEntry kv.1 kv.2).length :: encodeEntry kv.1 kv.2) ++ setPropertiesText rest

/-- The parsing loop of `ServiceInfo._unpack_text_into_properties`: read a
length byte, slice out that many payload bytes (Python slicing clamps at the
end of the string), repeat until the input is exhausted. The fuel argument
is the input length; every step consumes at least the length byte, so the
fuel never runs out on the actual argument. -/
def parsePairsAux : Nat → List Nat → List (List Nat)
  | _, [] => []
  | 0, _ :: _ => []
  | fuel + 1, len :: rest => rest.take len :: parsePairsAux fuel (rest.drop len)

/-- The pair list `_unpack_text_into_properties` builds before reversing. -/
def parsePairs (text : List Nat) : List (List Nat) :=
  parsePairsAux text.length text

/-- `key, _, value = pair.partition(b'=')` followed by `value or None`:
the key is everything before the first `=`; the value is what follows it,
collapsed to None when empty or when there is no `=` at all. -/
def splitPair (pair : List Nat) : List Nat × Option (List Nat) :=
  let key := pair.takeWhile (fun b => decide (b ≠ 61))
  let after := (pair.dropWhile (fun b => decide (b ≠ 61))).tail
  (key, if after = [] then none else some after)

/-- `ServiceInfo._unpack_text_into_properties`: empty text gives an empty
dict; otherwise the parsed pairs are reversed and the dict is built by the
comprehension `{key: value or None for ...}`, whose later insertions
overwrite earlier ones so that the first pair in wire order wins. -/
def unpackTextIntoProperties (text : List Nat) : PropsDict :=
  if text = [] then []
  else
    ((parsePairs text).reverse).foldl
      (fun d pair => dictInsert d (splitPair pair).1 (splitPair pair).2) []

/-- The mutable fields of a `ServiceInfo` instance (`__slots__`). `text` is
typed `bytes` in the source and never None after construction, but the code
checks `self.text is not None`, so it is embedded as an Option. -/
structure ServiceInfoState where
  text : Option (List Nat)
  type_ : String
  name : String
  key : String
  ipv4Addresses : List IPAddr
  ipv6Addresses : List IPAddr
  port : Option Nat
  weight : Nat
  priority : Nat
  server : Option String
  serverKey : Option String
  propertiesCache : Option PropsDict
  hostTtl : Nat
  otherTtl : Nat
deriving DecidableEq

/-- `ServiceInfo._set_text`: a no-op when the bytes are identical to the
stored text, otherwise replace the text and clear the properties cache. -/
def setText (s : ServiceInfoState) (text : List Nat) : ServiceInfoState :=
  if s.text = some text then s
  else { s with text := some text, propertiesCache := none }

/-- `ServiceInfo.__init__` for the claims' scenarios: bytes properties and no
initial addresses. An empty `server` string is stored as None (the source
writes `server if server else None`). -/
def serviceInfoInit (type_ name : String) (port : Option Nat) (weight priority : Nat)
    (properties : List Nat) (server : Option String) (hostTtl otherTtl : Nat) :
    ServiceInfoState :=
  let serverOpt : Option String :=
    match server with
    | some sv => if sv = "" then none else some sv
    | none => none
  let s : ServiceInfoState :=
    { text := some [], type_ := type_, name := name, key := name.toLower,
      ipv4Addresses := [], ipv6Addresses := [],
      port := port, weight := weight, priority := priority,
      server := serverOpt, serverKey := serverOpt.map String.toLower,
      propertiesCache := none, hostTtl := hostTtl, otherTtl := otherTtl }
  setText s properties

/-- `ServiceInfo._is_complete`: text is not None and at least one address
list is non-empty (Python truthiness of the two lists). -/
def isComplete (s : ServiceInfoState) : Bool :=
  decide (s.text ≠ none) && (decide (s.ipv4Addresses ≠ []) || decide (s.ipv6Addresses ≠ []))

/-- An incoming DNS resource record's payload, by concrete record class. -/
inductive DNSRecordData where
  | address (address : List Nat)
  | text (text : List Nat)
  | service (priority weight port : Nat) (server : String) (serverKey : String)
  | other
deriving DecidableEq

/-- The fields of a `DNSRecord` the reconciler reads: `key` is the lowercased
`name`; `created` and `ttl` drive expiry. -/
structure DNSRecord where
  name : String
  key : String
  ttl : Nat
  created : Nat
  data : DNSRecordData
deriving DecidableEq

/-- Modelled from the spec: `DNSRecord.is_expired` lives in `zeroconf._dns`
(not under src/); the spec pins it as `record.creation + ttl*1000 <= now`. -/
def isExpired (record : DNSRecord) (now : Nat) : Bool :=
  decide (record.created + record.ttl * 1000 ≤ now)

/-- One cached A/AAAA record as the external cache hands it back. -/
structure CachedAddressRecord where
  address : List Nat
  ttl : Nat
  created : Nat

/-- The external cache collaborator, reduced to the one lookup the address
loader uses: `zc.cache.get_all_by_details(server_key, type, _CLASS_IN)`. -/
abbrev Cache := String → Nat → List CachedAddressRecord

/-- `ServiceInfo._get_address_records_from_cache_by_type` composed with the
body of `_get_ip_addresses_from_cache_lifo`: no server key gives no records;
otherwise skip expired records, skip unparsable addresses, and reverse the
remainder into LIFO order. -/
def getIpAddressesFromCacheLifo (cache : Cache) (serverKey : Option String)
    (now : Nat) (type_ : Nat) : List IPAddr :=
  match serverKey with
  | none => []
  | some sk =>
    (((cache sk type_).filter
        (fun r => ! decide (r.created + r.ttl * 1000 ≤ now))).filterMap
      (fun r => cachedIpAddresses r.address)).reverse

/-- The insert-or-promote block of `_process_record_threadsafe`
(both IP families run the same three branches): absent addresses are
inserted at the head and count as new information; a present address is
moved to the head (no new information); an address already at the head is
left alone. -/
def insertOrPromoteList (addresses : List IPAddr) (ipAddr : IPAddr) :
    List IPAddr × Bool :=
  if ipAddr ∉ addresses then (ipAddr :: addresses, true)
  else if addresses.head? ≠ some ipAddr then (ipAddr :: addresses.erase ipAddr, false)
  else (addresses, false)

/-- `ServiceInfo._process_record_threadsafe`: dispatch an incoming record.
Expired records are dropped. An address record whose key matches the server
key updates the matching family's ledger — IPv4 first reloads the ledger
from the cache when it is non-empty, IPv6 when it is empty — and reports
new information only on a true insertion. Records whose key does not match
the service key are unrelated. A TXT record replaces the text (always
reported as new); an SRV record adopts host/port/priority/weight, and
reloads both ledgers from the cache when the server key changed. -/
def processRecordThreadsafe (cache : Cache) (s : ServiceInfoState)
    (record : DNSRecord) (now : Nat) : ServiceInfoState × Bool :=
  if isExpired record now then (s, false)
  else
    match record.data with
    | .address addrBytes =>
      if some record.key = s.serverKey then
        match cachedIpAddresses addrBytes with
        | none => (s, false)
        | some (.v4 b) =>
          let base := if s.ipv4Addresses = [] then s.ipv4Addresses
                      else getIpAddressesFromCacheLifo cache s.serverKey now TYPE_A
          let res := insertOrPromoteList base (IPAddr.v4 b)
          ({ s with ipv4Addresses := res.1 }, res.2)
        | some (.v6 b) =>
          let base := if s.ipv6Addresses = []
                      then getIpAddressesFromCacheLifo cache s.serverKey now TYPE_AAAA
                      else s.ipv6Addresses
          let res := insertOrPromoteList base (IPAddr.v6 b)
          ({ s with ipv6Addresses := res.1 }, res.2)
      else if record.key ≠ s.key then (s, false)
      else (s, false)
    | .text t =>
      if record.key ≠ s.key then (s, false)
      else (setText s t, true)
    | .service pr w po sv svKey =>
      if record.key ≠ s.key then (s, false)
      else
        let s1 := { s with
          name := record.name, key := record.name.toLower,
          server := some sv, serverKey := some svKey,
          port := some po, weight := w, priority := pr }
        if s.serverKey ≠ some svKey then
          ({ s1 with
              ipv4Addresses := getIpAddressesFromCacheLifo cache (some svKey) now TYPE_A,
              ipv6Addresses := getIpAddressesFromCacheLifo cache (some svKey) now TYPE_AAAA },
            true)
        else (s1, true)
    | .other =>
      if record.key ≠ s.key then (s, false) else (s, false)

/-- `self.server or self._name` under Python truthiness: an unset or empty
server falls back to the instance name. -/
def serverOrName (s : ServiceInfoState) : String :=
  match s.server with
  | some sv => if sv = "" then s.name else sv
  | none => s.name

/-- One outgoing `DNSAddress` as `ServiceInfo.dns_addresses` builds it. -/
structure DNSAddressOut where
  name : String
  type_ : Nat
  class_ : Nat
  ttl : Nat
  address : List Nat
  created : Option Nat
deriving DecidableEq

/-- The record `ServiceInfo.dns_addresses` builds for one ledger entry:
AAAA when the parsed address is an IPv6Address, A otherwise. -/
def dnsAddressOf (name : String) (ttl : Nat) (created : Option Nat) :
    IPAddr → DNSAddressOut
  | .v4 b => { name := name, type_ := TYPE_A, class_ := CLASS_IN_UNIQUE,
               ttl := ttl, address := b, created := created }
  | .v6 b => { name := name, type_ := TYPE_AAAA, class_ := CLASS_IN_UNIQUE,
               ttl := ttl, address := b, created := created }

/-- `ServiceInfo.dns_addresses` over all families: one record per ledger
entry, v4 before v6, target `server or name`, unique-owner class, TTL
override or `host_ttl`. -/
def dnsAddresses (s : ServiceInfoState) (overrideTtl : Option Nat)
    (created : Option Nat) : List DNSAddressOut :=
  (s.ipv4Addresses ++ s.ipv6Addresses).map
    (dnsAddressOf (serverOrName s) (overrideTtl.getD s.hostTtl) created)

/-- Whether a parsed address is an IPv4Address
(the `type(ip_addr) is IPv4Address` test). -/
def IPAddr.isV4 : IPAddr → Bool
  | .v4 _ => true
  | .v6 _ => false

/-- An outgoing `DNSNsec` as `ServiceInfo.dns_nsec` builds it. -/
structure DNSNsecRecord where
  name : String
  type_ : Nat
  class_ : Nat
  ttl : Nat
  nextName : String
  rdtypes : List Nat
  created : Option Nat
deriving DecidableEq

/-- `ServiceInfo.dns_nsec`: both the owner name and the next name are the
instance name `self._name`; the server field is never consulted. -/
def dnsNsec (s : ServiceInfoState) (missingTypes : List Nat)
    (overrideTtl : Option Nat) (created : Option Nat) : DNSNsecRecord :=
  { name := s.name, type_ := TYPE_NSEC, class_ := CLASS_IN_UNIQUE,
    ttl := overrideTtl.getD s.hostTtl, nextName := s.name,
    rdtypes := missingTypes, created := created }

/-- A member of the answer set `get_address_and_nsec_records` returns. -/
inductive AnswerRecord where
  | addr (record : DNSAddressOut)
  | nsec (record : DNSNsecRecord)
deriving DecidableEq

/-- `ServiceInfo.get_address_and_nsec_records`: all address records plus,
when an address type is missing, one NSEC record for the missing types.
The `assert self.server is not None` before building the NSEC record is
embedded as the `none` result (an AssertionError in the source). The
source collects the records into a set; the membership-relevant content
is kept here as a list. -/
def getAddressAndNsecRecords (s : ServiceInfoState) (overrideTtl : Option Nat)
    (created : Option Nat) : Option (List AnswerRecord) :=
  let addrs := dnsAddresses s overrideTtl created
  let missingTypes := [TYPE_A, TYPE_AAAA].filter
    (fun t => ! addrs.any (fun a => decide (a.type_ = t)))
  if missingTypes = [] then some (addrs.map AnswerRecord.addr)
  else if s.server = none then none
  else some (addrs.map AnswerRecord.addr
    ++ [AnswerRecord.nsec (dnsNsec s missingTypes overrideTtl created)])

/-- `ServiceInfo.__eq__`: equality is by service name alone (the isinstance
guard is vacuous in this embedding, where both sides are states). -/
def serviceInfoEq (s other : ServiceInfoState) : Bool :=
  decide (other.name = s.name)

/-- The query modes of `DNSQuestionType`: QU requests a unicast reply,
QM a multicast reply. -/
inductive DNSQuestionType where
  | QU
  | QM
deriving DecidableEq

/-- The question-type expression of `ServiceInfo.async_request` (line 682):
`question_type or DNSQuestionType.QU if first_request else DNSQuestionType.QM`.
Python's conditional binds looser than `or`, so this parses as
`(question_type or QU) if first_request else QM`: the caller's explicit
type is consulted on the first request only. -/
def requestQuestionType (questionType : Option DNSQuestionType)
    (firstRequest : Bool) : DNSQuestionType :=
  if firstRequest then questionType.getD DNSQuestionType.QU
  else DNSQuestionType.QM

/-- Whether `ServiceInfo.generate_request_query` marks the generated
questions as unicast: exactly when it is passed `DNSQuestionType.QU`. -/
def generateRequestQueryUnicast (questionType : Option DNSQuestionType) : Bool :=
  decide (questionType = some DNSQuestionType.QU)

/-! ## Concrete fixtures for counterexamples and witnesses -/

/-- A cache with no records at all. -/
def emptyCache : Cache := fun _ _ => []

/-- A service state whose SRV and TXT data are already known. -/
def txtState : ServiceInfoState :=
  { text := some [97, 98], type_ := "_http._tcp.local.",
    name := "p._http._tcp.local.", key := "p._http._tcp.local.",
    ipv4Addresses := [], ipv6Addresses := [],
    port := some 80, weight := 0, priority := 0,
    server := some "srv.local.", serverKey := some "srv.local.",
    propertiesCache := none, hostTtl := 120, otherTtl := 4500 }

/-- A fresh TXT record carrying exactly the bytes `txtState` already holds. -/
def txtRecord : DNSRecord :=
  { name := "p._http._tcp.local.", key := "p._http._tcp.local.", ttl := 4500,
    created := 0, data := DNSRecordData.text [97, 98] }

/-- The same TXT record with different bytes. -/
def txtRecordNew : DNSRecord :=
  { txtRecord with data := DNSRecordData.text [99] }

/-- A fresh A record for `txtState`'s server. -/
def addrRecord4 : DNSRecord :=
  { name := "srv.local.", key := "srv.local.", ttl := 120, created := 0,
    data := DNSRecordData.address [192, 168, 1, 2] }

/-- A cache holding one fresh A record for `srv.local.` with a different
address than `addrRecord4` carries. -/
def cacheWithV4 : Cache := fun sk type_ =>
  if sk = "srv.local." ∧ type_ = TYPE_A then
    [{ address := [10, 0, 0, 7], ttl := 120, created := 0 }]
  else []

/-- A fresh SRV record renaming the service's host. -/
def srvRecord : DNSRecord :=
  { name := "p._http._tcp.local.", key := "p._http._tcp.local.", ttl := 120,
    created := 0,
    data := DNSRecordData.service 1 2 8080 "newhost.local." "newhost.local." }

/-- A state whose server was never learned. -/
def nsecState : ServiceInfoState :=
  { txtState with server := none, serverKey := none }

/-- A state agreeing with `txtState` on the name alone: different resolved
port, server, text and addresses. -/
def eqStateB : ServiceInfoState :=
  { txtState with
    text := some [1, 2, 3], port := some 9999,
    server := none, serverKey := none,
    ipv4Addresses := [IPAddr.v4 [10, 0, 0, 1]] }

example : unpackTextIntoProperties [3, 97, 61, 49, 3, 98, 61, 50]
    = [([98], some [50]), ([97], some [49])] := by decide
example : unpackTextIntoProperties [3, 97, 61, 49, 3, 97, 61, 50]
    = [([97], some [49])] := by decide
example : unpackTextIntoProperties [1, 97] = [([97], none)] := by decide
example : unpackTextIntoProperties [2, 97, 61] = [([97], none)] := by decide
example : unpackTextIntoProperties [] = [] := by decide
example : setPropertiesText [([97], some [49]), ([98], none)]
    = [3, 97, 61, 49, 1, 98] := by decide

/-! ## Lemmas on the attribute codec -/

lemma lookupProp_dictInsert (d : PropsDict) (k' : List Nat) (v : Option (List Nat))
    (k : List Nat) :
    lookupProp (dictInsert d k' v) k = if k' = k then some v else lookupProp d k := by
  induction d with
  | nil => simp [dictInsert, lookupProp]
  | cons kv rest ih =>
    by_cases h1 : kv.1 = k'
    · by_cases h2 : k' = k <;> simp [dictInsert, lookupProp, h1, h2]
    · by_cases h3 : kv.1 = k
      · have h4 : ¬ k' = k := fun h => h1 (h3.trans h.symm)
        have h5 : ¬ k = k' := fun h => h4 h.symm
        simp [dictInsert, lookupProp, h1, h3, h4, h5]
      · simp [dictInsert, lookupProp, h1, h3, ih]

lemma lookupProp_foldr (pairs : List (List Nat)) (k : List Nat) :
    lookupProp (pairs.foldr
        (fun pair d => dictInsert d (splitPair pair).1 (splitPair pair).2) []) k
      = ((pairs.find? (fun pair => decide ((splitPair pair).1 = k))).map
          (fun pair => (splitPair pair).2)) := by
  induction pairs with
  | nil => simp [lookupProp]
  | cons p rest ih =>
    simp only [List.foldr, List.find?]
    rw [lookupProp_dictInsert]
    by_cases h : (splitPair p).1 = k <;> simp [h, ih]

lemma lookupProp_unpack (text : List Nat) (k : List Nat) :
    lookupProp (unpackTextIntoProperties text) k
      = ((parsePairs text).find? (fun pair => decide ((splitPair pair).1 = k))).map
          (fun pair => (splitPair pair).2) := by
  unfold unpackTextIntoProperties
  by_cases h : text = []
  · subst h; simp [parsePairs, parsePairsAux, lookupProp]
  · rw [if_neg h, List.foldl_reverse]
    exact lookupProp_foldr _ k

lemma takeWhile_ne61 (l : List Nat) (h : 61 ∉ l) :
    l.takeWhile (fun b => decide (b ≠ 61)) = l := by
  induction l with
  | nil => rfl
  | cons b rest ih =>
    have hb : b ≠ 61 := fun hb => h (by simp [hb])
    have hr : 61 ∉ rest := fun hr => h (List.mem_cons_of_mem _ hr)
    rw [List.takeWhile_cons, if_pos (by simp [hb]), ih hr]

lemma dropWhile_ne61 (l : List Nat) (h : 61 ∉ l) :
    l.dropWhile (fun b => decide (b ≠ 61)) = [] := by
  induction l with
  | nil => rfl
  | cons b rest ih =>
    have hb : b ≠ 61 := fun hb => h (by simp [hb])
    have hr : 61 ∉ rest := fun hr => h (List.mem_cons_of_mem _ hr)
    rw [List.dropWhile_cons, if_pos (by simp [hb]), ih hr]

lemma takeWhile_append_61 (key t : List Nat) (h : 61 ∉ key) :
    (key ++ 61 :: t).takeWhile (fun b => decide (b ≠ 61)) = key := by
  induction key with
  | nil => rw [List.nil_append, List.takeWhile_cons, if_neg (by simp)]
  | cons b rest ih =>
    have hb : b ≠ 61 := fun hb => h (by simp [hb])
    have hr : 61 ∉ rest := fun hr => h (List.mem_cons_of_mem _ hr)
    rw [List.cons_append, List.takeWhile_cons, if_pos (by simp [hb]), ih hr]

lemma dropWhile_append_61 (key t : List Nat) (h : 61 ∉ key) :
    (key ++ 61 :: t).dropWhile (fun b => decide (b ≠ 61)) = 61 :: t := by
  induction key with
  | nil => rw [List.nil_append, List.dropWhile_cons, if_neg (by simp)]
  | cons b rest ih =>
    have hb : b ≠ 61 := fun hb => h (by simp [hb])
    have hr : 61 ∉ rest := fun hr => h (List.mem_cons_of_mem _ hr)
    rw [List.cons_append, List.dropWhile_cons, if_pos (by simp [hb]), ih hr]

lemma splitPair_no_eq (pair : List Nat) (h : 61 ∉ pair) :
    splitPair pair = (pair, none) := by
  unfold splitPair
  rw [takeWhile_ne61 pair h, dropWhile_ne61 pair h]
  simp

lemma splitPair_encodeEntry (k : List Nat) (v : Option (List Nat))
    (hk : 61 ∉ k) (hv : v ≠ some []) :
    splitPair (encodeEntry k v) = (k, v) := by
  cases v with
  | none => exact splitPair_no_eq k hk
  | some val =>
    have hval : ¬ val = [] := fun h => hv (by rw [h])
    unfold encodeEntry splitPair
    rw [takeWhile_append_61 k val hk, dropWhile_append_61 k val hk]
    simp [hval]

lemma parsePairsAux_setPropertiesText (m : List (List Nat × Option (List Nat))) :
    ∀ fuel, (setPropertiesText m).length ≤ fuel →
      parsePairsAux fuel (setPropertiesText m)
        = m.map (fun kv => encodeEntry kv.1 kv.2) := by
  induction m with
  | nil => intro fuel _; cases fuel <;> simp [setPropertiesText, parsePairsAux]
  | cons kv rest ih =>
    intro fuel h
    simp only [setPropertiesText, List.cons_append, List.length_cons,
      List.length_append] at h ⊢
    cases fuel with
    | zero => omega
    | succ f =>
      simp only [parsePairsAux, List.take_left, List.drop_left, List.map]
      rw [ih f (by omega)]

lemma parsePairs_setPropertiesText (m : List (List Nat × Option (List Nat))) :
    parsePairs (setPropertiesText m) = m.map (fun kv => encodeEntry kv.1 kv.2) :=
  parsePairsAux_setPropertiesText m _ le_rfl

lemma find?_encode (m : List (List Nat × Option (List Nat)))
    (hkey : ∀ kv ∈ m, 61 ∉ kv.1) (hval : ∀ kv ∈ m, kv.2 ≠ some []) (k : List Nat) :
    (((m.map (fun kv => encodeEntry kv.1 kv.2)).find?
        (fun pair => decide ((splitPair pair).1 = k))).map
      (fun pair => (splitPair pair).2)) = lookupProp m k := by
  induction m with
  | nil => simp [lookupProp]
  | cons kv rest ih =>
    have h1 : splitPair (encodeEntry kv.1 kv.2) = (kv.1, kv.2) :=
      splitPair_encodeEntry kv.1 kv.2 (hkey kv (List.mem_cons_self kv rest))
        (hval kv (List.mem_cons_self kv rest))
    have ihr := ih (fun x hx => hkey x (List.mem_cons_of_mem kv hx))
      (fun x hx => hval x (List.mem_cons_of_mem kv hx))
    have h2 : (splitPair (encodeEntry kv.1 kv.2)).2 = kv.2 := by rw [h1]
    by_cases hk1 : kv.1 = k
    · have hl : lookupProp (kv :: rest) k = some kv.2 := by simp [lookupProp, hk1]
      rw [hl, List.map_cons, List.find?_cons_of_pos _ (by simp only [h1]; simp [hk1])]
      simp [h2]
    · rw [List.map_cons, List.find?_cons_of_neg _ (by simp only [h1]; simp [hk1]), ihr]
      simp [lookupProp, hk1]

lemma any_A_of_all_v4 (l : List IPAddr) (h : ∀ a ∈ l, IPAddr.isV4 a = true)
    (n : String) (t : Nat) (c : Option Nat) :
    (l.map (dnsAddressOf n t c)).any (fun a => decide (a.type_ = TYPE_A))
      = decide (l ≠ []) := by
  cases l with
  | nil => simp
  | cons a rest =>
    have ha := h a (List.mem_cons_self a rest)
    cases a with
    | v4 b => simp [dnsAddressOf, TYPE_A]
    | v6 b => simp [IPAddr.isV4] at ha

lemma any_A_of_all_v6 (l : List IPAddr) (h : ∀ a ∈ l, IPAddr.isV4 a = false)
    (n : String) (t : Nat) (c : Option Nat) :
    (l.map (dnsAddressOf n t c)).any (fun a => decide (a.type_ = TYPE_A)) = false := by
  induction l with
  | nil => simp
  | cons a rest ih =>
    have ha := h a (List.mem_cons_self a rest)
    have ihr := ih (fun x hx => h x (List.mem_cons_of_mem a hx))
    cases a with
    | v4 b => simp [IPAddr.isV4] at ha
    | v6 b => rw [List.map_cons, List.any_cons, ihr]; rfl

lemma any_AAAA_of_all_v6 (l : List IPAddr) (h : ∀ a ∈ l, IPAddr.isV4 a = false)
    (n : String) (t : Nat) (c : Option Nat) :
    (l.map (dnsAddressOf n t c)).any (fun a => decide (a.type_ = TYPE_AAAA))
      = decide (l ≠ []) := by
  cases l with
  | nil => simp
  | cons a rest =>
    have ha := h a (List.mem_cons_self a rest)
    cases a with
    | v4 b => simp [IPAddr.isV4] at ha
    | v6 b => simp [dnsAddressOf, TYPE_AAAA]

lemma any_AAAA_of_all_v4 (l : List IPAddr) (h : ∀ a ∈ l, IPAddr.isV4 a = true)
    (n : String) (t : Nat) (c : Option Nat) :
    (l.map (dnsAddressOf n t c)).any (fun a => decide (a.type_ = TYPE_AAAA)) = false := by
  induction l with
  | nil => simp
  | cons a rest ih =>
    have ha := h a (List.mem_cons_self a rest)
    have ihr := ih (fun x hx => h x (List.mem_cons_of_mem a hx))
    cases a with
    | v4 b => rw [List.map_cons, List.any_cons, ihr]; rfl
    | v6 b => simp [IPAddr.isV4] at ha

/-! ## Claim theorems for the attribute codec -/

/-- C4: decoding TXT bytes maps every key to the value of its first
occurrence in wire order; a payload without `=` and a payload with an empty
value both decode to a None value; empty text decodes to an empty mapping.
The concrete conjunct shows the duplicate key `a` keeping its first value. -/
theorem txt_decode_first_key_wins :
    (∀ text k, lookupProp (unpackTextIntoProperties text) k
        = ((parsePairs text).find? (fun pair => decide ((splitPair pair).1 = k))).map
            (fun pair => (splitPair pair).2))
    ∧ (∀ pair, 61 ∉ pair → splitPair pair = (pair, none))
    ∧ (∀ key, 61 ∉ key → splitPair (key ++ [61]) = (key, none))
    ∧ unpackTextIntoProperties [] = []
    ∧ lookupProp (unpackTextIntoProperties [3, 97, 61, 49, 3, 97, 61, 50]) [97]
        = some (some [49]) := by
  refine ⟨lookupProp_unpack, splitPair_no_eq, ?_, by decide, by decide⟩
  intro key h
  have h1 := dropWhile_append_61 key [] h
  have h2 := takeWhile_append_61 key [] h
  unfold splitPair
  rw [h2, h1]
  simp

/-- C5: the TXT round-trip law. For a mapping with bytes keys free of `=`,
values that are bytes or None and never empty bytes, and every encoded
entry within the 255-byte single-length-byte cap, decoding the encoding
reproduces exactly the mapping's key-to-value pairs. -/
theorem txt_roundtrip_decode_encode (m : List (List Nat × Option (List Nat)))
    (hkey : ∀ kv ∈ m, 61 ∉ kv.1) (hval : ∀ kv ∈ m, kv.2 ≠ some [])
    (hlen : ∀ kv ∈ m, (encodeEntry kv.1 kv.2).length ≤ 255) :
    ∀ k, lookupProp (unpackTextIntoProperties (setPropertiesText m)) k
      = lookupProp m k := by
  intro k
  rw [lookupProp_unpack, parsePairs_setPropertiesText]
  exact find?_encode m hkey hval k

/-- C5 witness: the round-trip law applied to the concrete mapping
a maps to "12", b maps to None. -/
theorem txt_roundtrip_decode_encode_witness :
    lookupProp (unpackTextIntoProperties (setPropertiesText
        [([97], some [49, 50]), ([98], none)])) [97] = some (some [49, 50])
    ∧ lookupProp (unpackTextIntoProperties (setPropertiesText
        [([97], some [49, 50]), ([98], none)])) [98] = some none := by
  have h := txt_roundtrip_decode_encode [([97], some [49, 50]), ([98], none)]
    (by decide) (by decide) (by decide)
  exact ⟨(h [97]).trans (by decide), (h [98]).trans (by decide)⟩

/-! ## Claim theorems for the record reconciler -/

/-- C1 counterexample: a non-expired TXT record whose key matches the state
and whose bytes are byte-identical to the stored text still makes
`_process_record_threadsafe` return true (the claim says false); the state
is left unchanged. -/
theorem txt_identical_bytes_counterexample :
    isExpired txtRecord 1000 = false
    ∧ txtRecord.key = txtState.key
    ∧ txtRecord.data = DNSRecordData.text [97, 98]
    ∧ txtState.text = some [97, 98]
    ∧ processRecordThreadsafe emptyCache txtState txtRecord 1000 = (txtState, true) := by
  decide

/-- C1 amended: applying a non-expired, key-matching TXT record always
returns true; the stored text is replaced through `_set_text`, which is a
no-op (state unchanged) when the bytes are identical, and otherwise
replaces the text and invalidates the attributes cache. -/
theorem txt_record_always_reports_new (cache : Cache) (s : ServiceInfoState)
    (record : DNSRecord) (now : Nat) (t : List Nat)
    (hexp : isExpired record now = false)
    (hdata : record.data = DNSRecordData.text t)
    (hkey : record.key = s.key) :
    processRecordThreadsafe cache s record now = (setText s t, true)
    ∧ (s.text = some t → setText s t = s)
    ∧ (s.text ≠ some t →
        (setText s t).text = some t ∧ (setText s t).propertiesCache = none) := by
  refine ⟨?_, ?_, ?_⟩
  · simp [processRecordThreadsafe, hexp, hdata, hkey]
  · intro h; simp [setText, h]
  · intro h; simp [setText, h]

/-- C1 witness: the amended theorem at a concrete changed TXT record. -/
theorem txt_record_always_reports_new_witness :
    processRecordThreadsafe emptyCache txtState txtRecordNew 1000
      = (setText txtState [99], true)
    ∧ (txtState.text ≠ some [99] →
        (setText txtState [99]).text = some [99]
        ∧ (setText txtState [99]).propertiesCache = none) := by
  have h := txt_record_always_reports_new emptyCache txtState txtRecordNew 1000 [99]
    (by decide) rfl (by decide)
  exact ⟨h.1, h.2.2⟩

/-- C3 counterexample: the IPv4 ledger of `txtState` is empty and the cache
holds a fresh A record for the server, yet applying a fresh A record does
not refresh the ledger from the cache first — the cached address is absent
from the resulting ledger, against the claim's empty-ledger refresh rule. -/
theorem ipv4_empty_not_refreshed_counterexample :
    txtState.ipv4Addresses = []
    ∧ isExpired addrRecord4 1000 = false
    ∧ some addrRecord4.key = txtState.serverKey
    ∧ getIpAddressesFromCacheLifo cacheWithV4 txtState.serverKey 1000 TYPE_A
        = [IPAddr.v4 [10, 0, 0, 7]]
    ∧ (processRecordThreadsafe cacheWithV4 txtState addrRecord4 1000).1.ipv4Addresses
        = [IPAddr.v4 [192, 168, 1, 2]]
    ∧ IPAddr.v4 [10, 0, 0, 7] ∉
        (processRecordThreadsafe cacheWithV4 txtState addrRecord4 1000).1.ipv4Addresses := by
  decide

/-- C3 amended: before insert-or-promote runs, the IPv6 ledger is reloaded
from the external cache exactly when it is empty, while the IPv4 ledger is
reloaded exactly when it is non-empty immediately before the insertion
attempt; insert-or-promote then runs on the possibly reloaded ledger. -/
theorem address_ledger_refresh_rule (cache : Cache) (s : ServiceInfoState)
    (record : DNSRecord) (now : Nat) (addrBytes : List Nat)
    (hexp : isExpired record now = false)
    (hdata : record.data = DNSRecordData.address addrBytes)
    (hkey : some record.key = s.serverKey) :
    (∀ b, cachedIpAddresses addrBytes = some (IPAddr.v4 b) →
      processRecordThreadsafe cache s record now =
        (let base := if s.ipv4Addresses = [] then s.ipv4Addresses
                     else getIpAddressesFromCacheLifo cache s.serverKey now TYPE_A
         let res := insertOrPromoteList base (IPAddr.v4 b)
         ({ s with ipv4Addresses := res.1 }, res.2)))
    ∧ (∀ b, cachedIpAddresses addrBytes = some (IPAddr.v6 b) →
      processRecordThreadsafe cache s record now =
        (let base := if s.ipv6Addresses = []
                     then getIpAddressesFromCacheLifo cache s.serverKey now TYPE_AAAA
                     else s.ipv6Addresses
         let res := insertOrPromoteList base (IPAddr.v6 b)
         ({ s with ipv6Addresses := res.1 }, res.2))) := by
  constructor <;> intro b hb <;>
    simp [processRecordThreadsafe, hexp, hdata, hkey.symm, hb]

/-- C3 witness: the amended rule at the concrete empty-IPv4 state. -/
theorem address_ledger_refresh_rule_witness :
    processRecordThreadsafe cacheWithV4 txtState addrRecord4 1000 =
      (let base := if txtState.ipv4Addresses = [] then txtState.ipv4Addresses
                   else getIpAddressesFromCacheLifo cacheWithV4 txtState.serverKey 1000 TYPE_A
       let res := insertOrPromoteList base (IPAddr.v4 [192, 168, 1, 2])
       ({ txtState with ipv4Addresses := res.1 }, res.2)) :=
  (address_ledger_refresh_rule cacheWithV4 txtState addrRecord4 1000
    [192, 168, 1, 2] (by decide) rfl (by decide)).1 [192, 168, 1, 2] (by decide)

/-- C7: insert-or-promote on an address ledger — an absent address is
inserted at the head and the ledger grows by one (new information); a
present address keeps the length, ends at the head and reports no new
information; no address is ever duplicated. The last conjunct ties the
block to `_process_record_threadsafe` on a non-empty IPv6 ledger, where no
cache reload intervenes. -/
theorem insert_or_promote_spec :
    (∀ (L : List IPAddr) (a : IPAddr),
      (a ∉ L → insertOrPromoteList L a = (a :: L, true)
        ∧ (insertOrPromoteList L a).1.length = L.length + 1)
      ∧ (a ∈ L → (insertOrPromoteList L a).1.length = L.length
        ∧ (insertOrPromoteList L a).1.head? = some a
        ∧ (insertOrPromoteList L a).2 = false)
      ∧ (L.Nodup → (insertOrPromoteList L a).1.Nodup))
    ∧ (∀ (cache : Cache) (s : ServiceInfoState) (record : DNSRecord) (now : Nat)
        (addrBytes b : List Nat),
        isExpired record now = false →
        record.data = DNSRecordData.address addrBytes →
        some record.key = s.serverKey →
        cachedIpAddresses addrBytes = some (IPAddr.v6 b) →
        s.ipv6Addresses ≠ [] →
        processRecordThreadsafe cache s record now =
          ({ s with
              ipv6Addresses := (insertOrPromoteList s.ipv6Addresses (IPAddr.v6 b)).1 },
            (insertOrPromoteList s.ipv6Addresses (IPAddr.v6 b)).2)) := by
  constructor
  · intro L a
    refine ⟨fun habs => ?_, fun hmem => ?_, fun hnd => ?_⟩
    · rw [insertOrPromoteList, if_pos habs]
      exact ⟨rfl, by simp⟩
    · rw [insertOrPromoteList, if_neg (fun hn => hn hmem)]
      by_cases hhd : L.head? ≠ some a
      · rw [if_pos hhd]
        have hlen := List.length_erase_of_mem hmem
        have hpos : 0 < L.length := List.length_pos.mpr (List.ne_nil_of_mem hmem)
        exact ⟨by simp [hlen]; omega, rfl, rfl⟩
      · rw [if_neg hhd]
        exact ⟨rfl, Decidable.not_not.mp hhd, rfl⟩
    · rw [insertOrPromoteList]
      by_cases habs : a ∉ L
      · rw [if_pos habs]
        exact List.nodup_cons.mpr ⟨habs, hnd⟩
      · rw [if_neg habs]
        by_cases hhd : L.head? ≠ some a
        · rw [if_pos hhd]
          exact List.nodup_cons.mpr ⟨hnd.not_mem_erase, hnd.erase a⟩
        · rw [if_neg hhd]
          exact hnd
  · intro cache s record now addrBytes b hexp hdata hkey hb h6
    simp [processRecordThreadsafe, hexp, hdata, hkey.symm, hb, h6]

/-- C6: a non-expired, key-matching SRV record makes the reconciler adopt
the record's name, server, port, weight and priority, recompute the key and
the server key, keep the text, reload both address ledgers from the cache
exactly when the server key changed, and always report new information. -/
theorem srv_record_adoption (cache : Cache) (s : ServiceInfoState)
    (record : DNSRecord) (now : Nat) (pr w po : Nat) (sv svKey : String)
    (hexp : isExpired record now = false)
    (hdata : record.data = DNSRecordData.service pr w po sv svKey)
    (hkey : record.key = s.key) :
    (processRecordThreadsafe cache s record now).2 = true
    ∧ (processRecordThreadsafe cache s record now).1.name = record.name
    ∧ (processRecordThreadsafe cache s record now).1.key = record.name.toLower
    ∧ (processRecordThreadsafe cache s record now).1.server = some sv
    ∧ (processRecordThreadsafe cache s record now).1.serverKey = some svKey
    ∧ (processRecordThreadsafe cache s record now).1.port = some po
    ∧ (processRecordThreadsafe cache s record now).1.weight = w
    ∧ (processRecordThreadsafe cache s record now).1.priority = pr
    ∧ (processRecordThreadsafe cache s record now).1.text = s.text
    ∧ (s.serverKey = some svKey →
        (processRecordThreadsafe cache s record now).1.ipv4Addresses = s.ipv4Addresses
        ∧ (processRecordThreadsafe cache s record now).1.ipv6Addresses = s.ipv6Addresses)
    ∧ (s.serverKey ≠ some svKey →
        (processRecordThreadsafe cache s record now).1.ipv4Addresses
          = getIpAddressesFromCacheLifo cache (some svKey) now TYPE_A
        ∧ (processRecordThreadsafe cache s record now).1.ipv6Addresses
          = getIpAddressesFromCacheLifo cache (some svKey) now TYPE_AAAA) := by
  by_cases hsk : s.serverKey = some svKey <;>
    simp [processRecordThreadsafe, hexp, hdata, hkey, hsk]

/-- C6 witness: the SRV adoption theorem at a concrete record that changes
the server from `srv.local.` to `newhost.local.`. -/
theorem srv_record_adoption_witness :
    (processRecordThreadsafe emptyCache txtState srvRecord 1000).2 = true
    ∧ (processRecordThreadsafe emptyCache txtState srvRecord 1000).1.server
        = some "newhost.local."
    ∧ (txtState.serverKey ≠ some "newhost.local." →
        (processRecordThreadsafe emptyCache txtState srvRecord 1000).1.ipv4Addresses
          = getIpAddressesFromCacheLifo emptyCache (some "newhost.local.") 1000 TYPE_A
        ∧ (processRecordThreadsafe emptyCache txtState srvRecord 1000).1.ipv6Addresses
          = getIpAddressesFromCacheLifo emptyCache (some "newhost.local.") 1000 TYPE_AAAA) := by
  have h := srv_record_adoption emptyCache txtState srvRecord 1000 1 2 8080
    "newhost.local." "newhost.local." (by decide) rfl (by decide)
  exact ⟨h.1, h.2.2.2.1, h.2.2.2.2.2.2.2.2.2.2⟩

/-! ## Claim theorems for completeness, the emitters and equality -/

/-- C8: `_is_complete` holds exactly when the text is non-null and one of
the address ledgers is non-empty; it is false right after construction with
no addresses, and true as soon as a first address is present with the text
set. -/
theorem is_complete_iff :
    (∀ s : ServiceInfoState, isComplete s = true ↔
      (s.text ≠ none ∧ (s.ipv4Addresses ≠ [] ∨ s.ipv6Addresses ≠ [])))
    ∧ (∀ (type_ name : String) (port : Option Nat) (weight priority : Nat)
        (properties : List Nat) (server : Option String) (hostTtl otherTtl : Nat),
        isComplete (serviceInfoInit type_ name port weight priority properties
          server hostTtl otherTtl) = false)
    ∧ (∀ (s : ServiceInfoState) (a : IPAddr), s.text ≠ none →
        isComplete { s with ipv4Addresses := a :: s.ipv4Addresses } = true) := by
  refine ⟨fun s => ?_, fun type_ name port weight priority properties server h o => ?_,
    fun s a h => ?_⟩
  · simp [isComplete]
  · simp only [serviceInfoInit, setText, isComplete]
    split <;> simp
  · simp [isComplete, h]

/-- C9 counterexample: with the server unset, `dns_nsec` does not fail — it
produces a full NSEC record that targets the instance name instead. -/
theorem nsec_without_server_counterexample :
    nsecState.server = none
    ∧ dnsNsec nsecState [TYPE_A, TYPE_AAAA] none none =
        { name := "p._http._tcp.local.", type_ := TYPE_NSEC,
          class_ := CLASS_IN_UNIQUE, ttl := 120,
          nextName := "p._http._tcp.local.", rdtypes := [TYPE_A, TYPE_AAAA],
          created := none } := by
  decide

/-- C9 amended: `dns_nsec` itself never needs the server — the record's
owner and next name are always the instance name; the assertion failure
lives in `get_address_and_nsec_records`, which (on family-typed ledgers)
fails exactly when the server is unset and at least one address family has
no addresses, and never fails when the server is set. -/
theorem nsec_assert_rule :
    (∀ (s : ServiceInfoState) (missingTypes : List Nat) (ttlO created : Option Nat),
      (dnsNsec s missingTypes ttlO created).name = s.name
      ∧ (dnsNsec s missingTypes ttlO created).nextName = s.name)
    ∧ (∀ (s : ServiceInfoState) (ttlO created : Option Nat),
      (∀ a ∈ s.ipv4Addresses, IPAddr.isV4 a = true) →
      (∀ a ∈ s.ipv6Addresses, IPAddr.isV4 a = false) →
      (getAddressAndNsecRecords s ttlO created = none ↔
        (s.server = none ∧ (s.ipv4Addresses = [] ∨ s.ipv6Addresses = [])))) := by
  constructor
  · intro s missingTypes ttlO created
    exact ⟨rfl, rfl⟩
  · intro s ttlO created h4 h6
    have hA : (dnsAddresses s ttlO created).any (fun a => decide (a.type_ = TYPE_A))
        = decide (s.ipv4Addresses ≠ []) := by
      simp only [dnsAddresses, List.map_append, List.any_append,
        any_A_of_all_v4 s.ipv4Addresses h4, any_A_of_all_v6 s.ipv6Addresses h6]
      simp
    have hB : (dnsAddresses s ttlO created).any (fun a => decide (a.type_ = TYPE_AAAA))
        = decide (s.ipv6Addresses ≠ []) := by
      simp only [dnsAddresses, List.map_append, List.any_append,
        any_AAAA_of_all_v4 s.ipv4Addresses h4, any_AAAA_of_all_v6 s.ipv6Addresses h6]
      simp
    have hmiss : [TYPE_A, TYPE_AAAA].filter
        (fun t => ! (dnsAddresses s ttlO created).any (fun a => decide (a.type_ = t)))
        = (if s.ipv4Addresses = [] then [TYPE_A] else [])
          ++ (if s.ipv6Addresses = [] then [TYPE_AAAA] else []) := by
      rw [List.filter_cons, List.filter_cons, List.filter_nil]
      simp only [hA, hB]
      by_cases hv4 : s.ipv4Addresses = [] <;> by_cases hv6 : s.ipv6Addresses = [] <;>
        simp [hv4, hv6]
    simp only [getAddressAndNsecRecords, hmiss]
    by_cases hv4 : s.ipv4Addresses = [] <;> by_cases hv6 : s.ipv6Addresses = [] <;>
      by_cases hsv : s.server = none <;> simp [hv4, hv6, hsv]

/-- C10: `__eq__` compares the service name and nothing else — the iff, and
two states with the same name but different port, server, text and
addresses that still compare equal. -/
theorem service_info_eq_name_only :
    (∀ a b : ServiceInfoState, serviceInfoEq a b = true ↔ b.name = a.name)
    ∧ serviceInfoEq txtState eqStateB = true
    ∧ txtState.port ≠ eqStateB.port
    ∧ txtState.server ≠ eqStateB.server
    ∧ txtState.text ≠ eqStateB.text
    ∧ txtState.ipv4Addresses ≠ eqStateB.ipv4Addresses := by
  refine ⟨fun a b => ?_, by decide, by decide, by decide, by decide, by decide⟩
  simp [serviceInfoEq]

/-- C2: the question-type expression of the retry loop at its inputs. With
an explicit QU forced by the caller, the first query is QU but every
retransmission falls back to QM and is not unicast-marked — the caller's
mode is not used throughout, because Python parses the expression as
`(question_type or QU) if first_request else QM`. With no explicit type the
first query is QU and retransmissions are QM. -/
theorem forced_question_type_evaluation :
    requestQuestionType (some DNSQuestionType.QU) true = DNSQuestionType.QU
    ∧ requestQuestionType (some DNSQuestionType.QU) false = DNSQuestionType.QM
    ∧ generateRequestQueryUnicast
        (some (requestQuestionType (some DNSQuestionType.QU) false)) = false
    ∧ requestQuestionType none true = DNSQuestionType.QU
    ∧ requestQuestionType none false = DNSQuestionType.QM := by
  decide

end ZeroconfInfo
